import Mathlib

/-!
Verification development for the `tovaras` desktop-pet program
(`src/main.rs`).  The per-tick motion controller, animation clock, visual
lookup table and the two scenario drivers are shallowly embedded below.

Modelling conventions:
* Rust `f32` quantities are modelled as exact rationals `ℚ` (the claims speak
  of equalities "within floating rounding tolerance", which the exact model
  realises as equalities); `i32` quantities are modelled as `ℤ`.
* `v as i32` (Rust float-to-int cast) truncates toward zero, modelled by
  `i32trunc`; `f32::round` rounds half away from zero, modelled by `f32round`.
* `f32::sqrt` has no exact counterpart on `ℚ`; inside the discrete step it is
  passed as an oracle parameter `sqrtQ : ℚ → ℚ` (every theorem about the step
  quantifies over it), while the exact analysis of the wall-jump solver is
  carried out over `ℝ` with `Real.sqrt`.
* The Bevy framework pieces (window handles, `Timer`, `Transform`) are not
  themselves modelled: the timer's `just_finished` result enters
  `animate_sprite_index` as a Boolean, and rotation angles are stored as
  integer multiples of `π/2`.
-/

namespace Tovaras

/-! ### Constants (src/main.rs lines 8-53) -/

def SHEET_COLS : ℕ := 27
def SHEET_ROWS : ℕ := 9

def ROW_FRAMES : List ℕ := [13, 5, 17, 27, 1, 9, 1, 8, 8]
def ROW_IDLE1 : ℕ := 0
def ROW_WALK_R : ℕ := 1
def ROW_IDLE2 : ℕ := 2
def ROW_GIVING_FLOWERS : ℕ := 3
def ROW_JUMP_R : ℕ := 4
def ROW_LAND_R : ℕ := 5
def ROW_SLEEP : ℕ := 6
def ROW_HIDE : ℕ := 7
def ROW_CLIMB_R : ℕ := 8

def FPS_IDLE : ℚ := 10
def FPS_MOVE : ℚ := 14
def FPS_CLIMB : ℚ := 12
def FPS_HIDE : ℚ := 10
def FPS_SLEEP : ℚ := 8
def FPS_GIVING_FLOWERS : ℚ := 6
def FPS_JUMP : ℚ := 1
def FPS_LAND : ℚ := 20

def SPEED_FLOOR : ℚ := 90
def SPEED_WALL : ℚ := 70
def SPEED_CEIL : ℚ := 90

def GRAVITY : ℚ := 1800
def FLOOR_JUMP_VY0 : ℚ := -900
def WALL_JUMP_VY0 : ℚ := -880

def CASE_DUR : ℚ := 3/2
def START_MARGIN : ℤ := 40
/-- `DUR_GIVING_FLOWERS = ROW_FRAMES[ROW_GIVING_FLOWERS] / FPS_GIVING_FLOWERS + 0.5`. -/
def DUR_GIVING_FLOWERS : ℚ := ((ROW_FRAMES.getD ROW_GIVING_FLOWERS 0 : ℕ) : ℚ) / FPS_GIVING_FLOWERS + 1/2

def LANDING_HOLD : ℚ := 1/2
def LANDING_DRIFT : ℚ := 100

/-! ### Data model (src/main.rs lines 55-166) -/

inductive Surface where
  | Floor
  | RightWall
  | Ceiling
  | LeftWall
deriving DecidableEq, Repr

inductive Action where
  | Idle
  | Move
  | Climb
  | Jumping
  | Landing
  | Sleeping
  | Hiding
  | GivingFlowers
deriving DecidableEq, Repr

inductive FlightKind where
  | None
  | Parabola
deriving DecidableEq, Repr

/-- `PetState` (src/main.rs lines 111-128). `windowPos` plays the role of the
local `pos` variable inside the per-tick systems; it is read at the start and
written (clamped) at the end of `apply_motion_and_orientation`, exactly as the
source does with `st.window_pos`. -/
structure PetState where
  surface : Surface
  action : Action
  dir : ℚ
  windowPos : ℤ × ℤ
  flight : FlightKind
  flightFrom : Surface
  vx : ℚ
  vy : ℚ
  landingLeft : ℚ
  targetX : ℤ
  wallTarget : Option (Surface × ℤ)
deriving DecidableEq, Repr

/-! ### Numeric helpers -/

/-- Rust `f32 as i32`: truncation toward zero (no saturation needed in the
program's value range). -/
def i32trunc (q : ℚ) : ℤ := if 0 ≤ q then ⌊q⌋ else ⌈q⌉

/-- Rust `f32::round`: round half away from zero. -/
def f32round (q : ℚ) : ℤ := if 0 ≤ q then ⌊q + 1/2⌋ else ⌈q - 1/2⌉

/-- Rust `i32::clamp(lo, hi)` (callers always have `lo ≤ hi`). -/
def clampI (v lo hi : ℤ) : ℤ := min (max v lo) hi

/-! ### Screen geometry (src/main.rs lines 712-718)

`screen_w.saturating_sub(fw)` is modelled as plain subtraction: `i32`
saturating subtraction only saturates at the `i32` range bounds, which the
`ℤ` model does not have. -/

def screenW (fw : ℤ) : ℤ := max 1920 (fw + 2 * START_MARGIN)
def screenH (fh : ℤ) : ℤ := max 1080 (fh + 2 * START_MARGIN)
def maxX (fw : ℤ) : ℤ := screenW fw - fw
def maxY (fh : ℤ) : ℤ := screenH fh - fh

/-! ### Takeoff velocity computations (src/main.rs lines 739-791) -/

/-- Floor → floor takeoff (lines 765-771): `t = 2·(−FLOOR_JUMP_VY0)/GRAVITY`,
`vx = (target_x − pos.x)/t`, `vy = FLOOR_JUMP_VY0`. -/
def floorJumpVel (tX pX : ℤ) : ℚ × ℚ :=
  let t : ℚ := 2 * (-FLOOR_JUMP_VY0) / GRAVITY
  let dx : ℚ := ((tX - pX : ℤ) : ℚ)
  (if 0 < t then dx / t else 0, FLOOR_JUMP_VY0)

/-- The quadratic positive-root computation shared by the wall-target and
wall-takeoff branches (lines 748-754 and 779-784): `disc = b² − 4ac`;
`(−b + √disc)/(2a)` when `disc ≥ 0`, else `1`. -/
def quadPosRoot (sqrtQ : ℚ → ℚ) (a b c : ℚ) : ℚ :=
  let disc := b * b - 4 * a * c
  if 0 ≤ disc then (-b + sqrtQ disc) / (2 * a) else 1

/-- Floor → wall takeoff (lines 742-764). -/
def floorToWallVel (sqrtQ : ℚ → ℚ) (wall : Surface) (ty mX mY pX : ℤ) : ℚ × ℚ :=
  let y0 : ℚ := (mY : ℚ)
  let c := y0 - (ty : ℚ)
  let t := quadPosRoot sqrtQ (1/2 * GRAVITY) FLOOR_JUMP_VY0 c
  let wallX : ℤ := if wall = Surface.LeftWall then 0 else mX
  let dx : ℚ := ((wallX - pX : ℤ) : ℚ)
  (if 0 < t then dx / t else 0, FLOOR_JUMP_VY0)

/-- Wall → floor takeoff (lines 773-789). -/
def wallJumpVelQ (sqrtQ : ℚ → ℚ) (tX pX pY mY : ℤ) : ℚ × ℚ :=
  let y0 : ℚ := (pY : ℚ)
  let c := y0 - (mY : ℚ)
  let t := quadPosRoot sqrtQ (1/2 * GRAVITY) WALL_JUMP_VY0 c
  let dx : ℚ := ((tX - pX : ℤ) : ℚ)
  (if 0 < t then dx / t else 0, WALL_JUMP_VY0)

/-- Takeoff phase (src/main.rs lines 721-795): on `Jumping` with no active
flight, capture the takeoff surface, compute velocities and enter flight;
disabled on the ceiling.  Note the `wall_target.take()` on line 742: the wall
target is consumed at takeoff. -/
def takeoffPhase (sqrtQ : ℚ → ℚ) (mX mY : ℤ) (st : PetState) : PetState :=
  if st.action = Action.Jumping ∧ st.flight = FlightKind.None then
    if st.surface = Surface.Ceiling then st
    else
      let st1 := { st with flightFrom := st.surface }
      let st2 :=
        match st1.surface with
        | Surface.Floor =>
          match st1.wallTarget with
          | some (wall, ty) =>
            let v := floorToWallVel sqrtQ wall ty mX mY st1.windowPos.1
            { st1 with vx := v.1, vy := v.2, wallTarget := none }
          | none =>
            let v := floorJumpVel st1.targetX st1.windowPos.1
            { st1 with vx := v.1, vy := v.2 }
        | Surface.RightWall =>
          let v := wallJumpVelQ sqrtQ st1.targetX st1.windowPos.1 st1.windowPos.2 mY
          { st1 with vx := v.1, vy := v.2 }
        | Surface.LeftWall =>
          let v := wallJumpVelQ sqrtQ st1.targetX st1.windowPos.1 st1.windowPos.2 mY
          { st1 with vx := v.1, vy := v.2 }
        | Surface.Ceiling => st1
      { st2 with flight := FlightKind.Parabola, landingLeft := 0 }
  else st

/-- Flight integration, wall capture and floor landing (src/main.rs lines
798-879); only called when `flight ≠ None`.  Semi-implicit Euler: velocity
updates first, then position, then a defensive clamp. -/
def flightPhase (mX mY : ℤ) (dt : ℚ) (st : PetState) : PetState :=
  let vy := st.vy + GRAVITY * dt
  let px := clampI (i32trunc ((st.windowPos.1 : ℚ) + st.vx * dt)) 0 mX
  let py := clampI (i32trunc ((st.windowPos.2 : ℚ) + vy * dt)) 0 mY
  let st1 := { st with vy := vy, windowPos := (px, py) }
  let st2 :=
    match st1.wallTarget with
    | some (wall, ty) =>
      match wall with
      | Surface.LeftWall =>
        if px ≤ 0 then
          { st1 with
            windowPos := (0, clampI ty 0 mY)
            flight := FlightKind.None
            surface := Surface.LeftWall
            action := Action.Climb
            dir := if st1.vy ≤ 0 then 1 else -1
            wallTarget := none }
        else st1
      | Surface.RightWall =>
        if px ≥ mX then
          { st1 with
            windowPos := (mX, clampI ty 0 mY)
            flight := FlightKind.None
            surface := Surface.RightWall
            action := Action.Climb
            dir := if st1.vy ≤ 0 then 1 else -1
            wallTarget := none }
        else st1
      | _ => st1
    | none => st1
  if st2.flight ≠ FlightKind.None ∧ st2.windowPos.2 ≥ mY then
    { st2 with
      flight := FlightKind.None
      surface := Surface.Floor
      action := Action.Landing
      dir := (match st2.flightFrom with
              | Surface.RightWall => -1
              | Surface.LeftWall => 1
              | _ => if 0 ≤ st2.vx then 1 else -1)
      windowPos := (clampI st2.targetX 0 mX, st2.windowPos.2)
      landingLeft := LANDING_HOLD
      wallTarget := none }
  else st2

/-- On-surface motion with corner transitions (src/main.rs lines 881-990);
the `else` branch of the flight test. -/
def surfacePhase (mX mY : ℤ) (dt : ℚ) (st : PetState) : PetState :=
  match st.surface with
  | Surface.Floor =>
    let st1 :=
      match st.action with
      | Action.Move =>
        let px := i32trunc ((st.windowPos.1 : ℚ) + SPEED_FLOOR * st.dir * dt)
        if px ≤ 0 then
          { st with
            windowPos := (0, st.windowPos.2)
            surface := Surface.LeftWall
            action := Action.Climb
            dir := 1 }
        else if px ≥ mX then
          { st with
            windowPos := (mX, st.windowPos.2)
            surface := Surface.RightWall
            action := Action.Climb
            dir := 1 }
        else { st with windowPos := (px, st.windowPos.2) }
      | Action.Landing =>
        { st with
          windowPos :=
            (i32trunc ((st.windowPos.1 : ℚ) + LANDING_DRIFT * st.dir * dt), st.windowPos.2) }
      | _ => st
    { st1 with windowPos := (st1.windowPos.1, mY) }
  | Surface.RightWall =>
    let st1 :=
      if st.action = Action.Climb then
        let py := i32trunc ((st.windowPos.2 : ℚ) - SPEED_WALL * st.dir * dt)
        let stc := { st with windowPos := (mX, py) }
        if py ≤ 0 ∧ 0 < st.dir then
          { stc with
            windowPos := (mX, 0)
            surface := Surface.Ceiling
            action := Action.Climb
            dir := -1 }
        else if py ≥ mY ∧ st.dir < 0 then
          { stc with
            windowPos := (mX, mY)
            surface := Surface.Floor
            action := Action.Move
            dir := -1 }
        else stc
      else st
    { st1 with windowPos := (mX, clampI st1.windowPos.2 0 mY) }
  | Surface.Ceiling =>
    let st1 :=
      if st.action = Action.Climb then
        let px := i32trunc ((st.windowPos.1 : ℚ) + SPEED_CEIL * st.dir * dt)
        let stc := { st with windowPos := (px, 0) }
        if px ≤ 0 ∧ st.dir < 0 then
          { stc with
            windowPos := (0, 0)
            surface := Surface.LeftWall
            action := Action.Climb
            dir := -1 }
        else if px ≥ mX ∧ 0 < st.dir then
          { stc with
            windowPos := (mX, 0)
            surface := Surface.RightWall
            action := Action.Climb
            dir := -1 }
        else stc
      else st
    { st1 with windowPos := (clampI st1.windowPos.1 0 mX, 0) }
  | Surface.LeftWall =>
    let st1 :=
      if st.action = Action.Climb then
        let py := i32trunc ((st.windowPos.2 : ℚ) - SPEED_WALL * st.dir * dt)
        let stc := { st with windowPos := (0, py) }
        if py ≤ 0 ∧ 0 < st.dir then
          { stc with
            windowPos := (0, 0)
            surface := Surface.Ceiling
            action := Action.Climb
            dir := 1 }
        else if py ≥ mY ∧ st.dir < 0 then
          { stc with
            windowPos := (0, mY)
            surface := Surface.Floor
            action := Action.Move
            dir := 1 }
        else stc
      else st
    { st1 with windowPos := (0, clampI st1.windowPos.2 0 mY) }

/-- Landing-hold timer update (src/main.rs lines 993-999). -/
def landingHoldStep (a : Action) (l dt : ℚ) : Action × ℚ :=
  if a = Action.Landing then
    let l2 := l - dt
    if l2 ≤ 0 then (Action.Move, l2) else (Action.Landing, l2)
  else (a, l)

/-- Takeoff, then flight or surface motion (the `if st.flight != None` on
line 798 is evaluated after the takeoff block, so a fresh takeoff integrates
in the same tick). -/
def motionCore (sqrtQ : ℚ → ℚ) (mX mY : ℤ) (dt : ℚ) (st : PetState) : PetState :=
  let st1 := takeoffPhase sqrtQ mX mY st
  if st1.flight ≠ FlightKind.None then flightPhase mX mY dt st1
  else surfacePhase mX mY dt st1

/-- The full per-tick motion system `apply_motion_and_orientation`
(src/main.rs lines 696-1003), modelled on `PetState` (the sprite-visual calls
it makes are the pure lookup `set_visual_for`, modelled separately). -/
def apply_motion_and_orientation (sqrtQ : ℚ → ℚ) (dt : ℚ) (fw fh : ℤ)
    (st : PetState) : PetState :=
  let mX := maxX fw
  let mY := maxY fh
  let st1 := motionCore sqrtQ mX mY dt st
  let p := landingHoldStep st1.action st1.landingLeft dt
  { st1 with
    action := p.1
    landingLeft := p.2
    windowPos := (clampI st1.windowPos.1 0 mX, clampI st1.windowPos.2 0 mY) }

/-! ### Animation clock (src/main.rs lines 84-103, 578-622) -/

def row_col_to_index (row col : ℕ) : ℕ := row * SHEET_COLS + col
def row_start (row : ℕ) : ℕ := row * SHEET_COLS

/-- `f32::EPSILON = 2⁻²³`. -/
def EPSILON32 : ℚ := 1 / 2 ^ 23

/-- The `Anim` component: row start offset, frame count, and the repeating
timer's period (seconds per frame); the timer's elapsed time lives in the
framework `Timer` and is not needed by the claims. -/
structure Anim where
  start_index : ℕ
  len : ℕ
  spf : ℚ
deriving DecidableEq, Repr

/-- `set_anim_if_changed` (lines 587-603), acting on the `Anim` component and
the atlas frame index.  `ROW_FRAMES[row]` is modelled with `getD` (all callers
pass `row < 9`). -/
def set_anim_if_changed (a : Anim) (index : ℕ) (row : ℕ) (fps : ℚ) : Anim × ℕ :=
  let start := row_start row
  let len := ROW_FRAMES.getD row 0
  let spf := 1 / max fps 1
  let needs := a.start_index ≠ start ∨ a.len ≠ len ∨ |a.spf - spf| > EPSILON32
  if needs then ({ start_index := start, len := len, spf := spf }, start)
  else (a, index)

/-- The frame-index update of `animate_sprite` (lines 606-622).  The Bevy
timer's `tick`/`just_finished` is framework state entering as `justFinished`;
when it did not fire, the index is untouched.  `usize` subtraction is
saturating, matching `ℕ` subtraction. -/
def animate_sprite_index (justFinished : Bool) (a : Anim) (index : ℕ) : ℕ :=
  if justFinished ∧ 0 < a.len then
    let idx := if index < a.start_index ∨ index ≥ a.start_index + a.len
               then a.start_index else index
    let lcl := idx - a.start_index
    let nextLcl := if lcl ≥ a.len - 1 then 0 else lcl + 1
    a.start_index + nextLcl
  else index

/-! ### Visual lookup table (src/main.rs lines 626-693) -/

/-- The tuple returned by the big `match` in `set_visual_for`: sprite row,
frames per second, rotation (stored as the integer multiple of `π/2` the
source writes in radians: `0`, `±FRAC_PI_2 → ±1`, `PI → 2`), and the two
mirror flags. -/
structure Visual where
  row : ℕ
  fps : ℚ
  rotPi2 : ℤ
  flipX : Bool
  flipY : Bool
deriving DecidableEq, Repr

/-- The pure lookup at the heart of `set_visual_for` (lines 634-685); the Rust
function then applies the tuple via `set_anim_if_changed` and the transform. -/
def set_visual_for (surface : Surface) (action : Action) (dir : ℚ) : Visual :=
  match surface, action with
  | Surface.Floor, Action.Move => ⟨ROW_WALK_R, FPS_MOVE, 0, decide (dir < 0), false⟩
  | Surface.Floor, Action.Idle => ⟨ROW_IDLE1, FPS_IDLE, 0, false, false⟩
  | Surface.Floor, Action.Sleeping => ⟨ROW_SLEEP, FPS_SLEEP, 0, false, false⟩
  | Surface.Floor, Action.GivingFlowers =>
      ⟨ROW_GIVING_FLOWERS, FPS_GIVING_FLOWERS, 0, false, false⟩
  | Surface.Floor, Action.Hiding => ⟨ROW_HIDE, FPS_HIDE, 0, false, true⟩
  | Surface.Floor, Action.Jumping => ⟨ROW_JUMP_R, FPS_JUMP, 0, decide (dir < 0), false⟩
  | Surface.Floor, Action.Landing => ⟨ROW_LAND_R, FPS_LAND, 0, decide (dir < 0), false⟩
  | Surface.RightWall, Action.Climb => ⟨ROW_CLIMB_R, FPS_CLIMB, 0, false, decide (dir < 0)⟩
  | Surface.RightWall, Action.Hiding => ⟨ROW_HIDE, FPS_HIDE, -1, false, false⟩
  | Surface.RightWall, Action.Jumping => ⟨ROW_JUMP_R, FPS_JUMP, 0, true, false⟩
  | Surface.Ceiling, Action.Climb => ⟨ROW_CLIMB_R, FPS_CLIMB, 1, decide (0 < dir), false⟩
  | Surface.Ceiling, Action.Hiding => ⟨ROW_HIDE, FPS_HIDE, 0, false, false⟩
  | Surface.LeftWall, Action.Climb => ⟨ROW_CLIMB_R, FPS_CLIMB, 2, false, decide (0 < dir)⟩
  | Surface.LeftWall, Action.Hiding => ⟨ROW_HIDE, FPS_HIDE, 1, false, false⟩
  | Surface.LeftWall, Action.Jumping => ⟨ROW_JUMP_R, FPS_JUMP, 0, false, false⟩
  | _, _ => ⟨ROW_IDLE1, FPS_IDLE, 0, false, false⟩

/-- The `(surface, action)` pairs carrying an explicit arm in the `match` of
`set_visual_for`; everything else hits the `_` fallback arm. -/
def mappedVisualPairs : List (Surface × Action) :=
  [(Surface.Floor, Action.Move), (Surface.Floor, Action.Idle),
   (Surface.Floor, Action.Sleeping), (Surface.Floor, Action.GivingFlowers),
   (Surface.Floor, Action.Hiding), (Surface.Floor, Action.Jumping),
   (Surface.Floor, Action.Landing),
   (Surface.RightWall, Action.Climb), (Surface.RightWall, Action.Hiding),
   (Surface.RightWall, Action.Jumping),
   (Surface.Ceiling, Action.Climb), (Surface.Ceiling, Action.Hiding),
   (Surface.LeftWall, Action.Climb), (Surface.LeftWall, Action.Hiding),
   (Surface.LeftWall, Action.Jumping)]

/-! ### Scenario cases and the xorshift RNG (src/main.rs lines 130-166,
360-396) -/

inductive JumpPreset where
  | FloorPct (startPct targetPct : ℚ)
  | FloorToWall (wall : Surface) (startPct targetYPct : ℚ)
  | WallToFloorPct (targetPct : ℚ)
  | None
deriving DecidableEq, Repr

structure TestCase where
  surface : Surface
  action : Action
  dir : ℚ
  dur : ℚ
  preset : JumpPreset
deriving DecidableEq, Repr

structure TestSeq where
  cases : List TestCase
  i : ℕ
  left : ℚ
deriving DecidableEq, Repr

/-- `TinyRng::next_u32` (lines 372-379): xorshift on a 32-bit word, modelled on
`ℕ` with explicit reduction `% 2³²` where a left shift can overflow.  Returns
the drawn value, which is also the new state. -/
def next_u32 (s : ℕ) : ℕ :=
  let x0 := s % 2 ^ 32
  let x1 := x0 ^^^ ((x0 <<< 13) % 2 ^ 32)
  let x2 := x1 ^^^ (x1 >>> 17)
  x2 ^^^ ((x2 <<< 5) % 2 ^ 32)

/-- `TinyRng::f32` (lines 380-382): `next_u32() / u32::MAX`. -/
def rngF32 (s : ℕ) : ℚ × ℕ :=
  let v := next_u32 s
  ((v : ℚ) / ((2 ^ 32 - 1 : ℕ) : ℚ), v)

/-- `TinyRng::range_f32` (lines 383-385). -/
def range_f32 (s : ℕ) (a b : ℚ) : ℚ × ℕ :=
  let p := rngF32 s
  (a + (b - a) * p.1, p.2)

/-- `TinyRng::range_i32` (lines 386-392); `.floor() as i32` on a nonnegative
`f32` is the rational floor. -/
def range_i32 (s : ℕ) (a b : ℤ) : ℤ × ℕ :=
  if b ≤ a then (a, s)
  else
    let p := rngF32 s
    (a + ⌊p.1 * (((b - a + 1 : ℤ)) : ℚ)⌋, p.2)

/-- `TinyRng::chance` (lines 393-395). -/
def chance (s : ℕ) (p : ℚ) : Bool × ℕ :=
  let q := rngF32 s
  (decide (q.1 < p), q.2)

/-- `pick_random_case` (src/main.rs lines 1113-1210), with the RNG state
threaded explicitly; the second `chance` on a wall draws only when the first
returned `false`, exactly as the Rust short-circuit does. -/
def pick_random_case (s : ℕ) (current_surface : Surface) : TestCase × ℕ :=
  let ar : Action × ℕ :=
    match current_surface with
    | Surface.Floor =>
      let v := next_u32 s
      let roll := v % 6
      (if roll = 0 then Action.Move
       else if roll = 1 then Action.Idle
       else if roll = 2 then Action.Sleeping
       else if roll = 3 then Action.GivingFlowers
       else if roll = 4 then Action.Hiding
       else Action.Jumping, v)
    | Surface.RightWall | Surface.LeftWall =>
      let c1 := chance s (20/100)
      if c1.1 then (Action.Hiding, c1.2)
      else
        let c2 := chance c1.2 (30/100)
        if c2.1 then (Action.Jumping, c2.2) else (Action.Climb, c2.2)
    | Surface.Ceiling =>
      let c1 := chance s (30/100)
      (if c1.1 then Action.Hiding else Action.Climb, c1.2)
  let action := ar.1
  let dr : ℚ × ℕ :=
    match current_surface, action with
    | Surface.Floor, Action.Move =>
      let c := chance ar.2 (1/2); (if c.1 then -1 else 1, c.2)
    | Surface.Floor, Action.Jumping =>
      let c := chance ar.2 (1/2); (if c.1 then -1 else 1, c.2)
    | Surface.RightWall, Action.Climb =>
      let c := chance ar.2 (1/2); (if c.1 then 1 else -1, c.2)
    | Surface.LeftWall, Action.Climb =>
      let c := chance ar.2 (1/2); (if c.1 then 1 else -1, c.2)
    | Surface.Ceiling, Action.Climb =>
      let c := chance ar.2 (1/2); (if c.1 then 1 else -1, c.2)
    | _, _ => (1, ar.2)
  let preset : JumpPreset :=
    match current_surface, action with
    | Surface.Floor, Action.Jumping => JumpPreset.FloorPct 0 0
    | Surface.RightWall, Action.Jumping => JumpPreset.WallToFloorPct 0
    | Surface.LeftWall, Action.Jumping => JumpPreset.WallToFloorPct 0
    | _, _ => JumpPreset.None
  ({ surface := current_surface, action := action, dir := dr.1, dur := 1,
     preset := preset }, dr.2)

/-! ### Deterministic driver (src/main.rs lines 1006-1058, 1213-1336) -/

/-- Resets the flight/landing fields on a case change (lines 1222-1233 and
1349-1363, identical in both drivers). -/
def resetForCase (case : TestCase) (st : PetState) : PetState :=
  { st with
    surface := case.surface
    action := case.action
    dir := case.dir
    flight := FlightKind.None
    flightFrom := case.surface
    vx := 0
    vy := 0
    landingLeft := 0
    targetX := 0
    wallTarget := none }

/-- `apply_case_deterministic` (lines 1213-1336): teleports the window to a
canonical start position for the new case and installs jump targets from the
preset percentages. -/
def apply_case_deterministic (scrW scrH fw fh : ℤ) (case : TestCase)
    (st : PetState) : PetState :=
  let st0 := resetForCase case st
  let mX := max (scrW - fw) 0
  let mY := max (scrH - fh) 0
  let midY := Int.tdiv (scrH - fh) 2
  match st0.surface with
  | Surface.Floor =>
    if st0.action = Action.Jumping then
      match case.preset with
      | JumpPreset.FloorPct startPct targetPct =>
        let startX := f32round ((mX : ℚ) * startPct)
        let targX := f32round ((mX : ℚ) * targetPct)
        let pos := (clampI startX 0 mX, mY)
        let tX := clampI targX 0 mX
        { st0 with
          windowPos := pos
          targetX := tX
          dir := if tX ≥ pos.1 then 1 else -1 }
      | JumpPreset.FloorToWall wall startPct targetYPct =>
        let startX := f32round ((mX : ℚ) * startPct)
        let pos := (clampI startX 0 mX, mY)
        let ty := f32round ((mY : ℚ) * targetYPct)
        let wallX : ℤ := if wall = Surface.LeftWall then 0 else mX
        { st0 with
          windowPos := pos
          wallTarget := some (wall, clampI ty 0 mY)
          dir := if wallX ≥ pos.1 then 1 else -1 }
      | _ => { st0 with windowPos := st.windowPos }
    else
      let x := if st0.dir ≥ 0 then START_MARGIN else mX - START_MARGIN
      { st0 with windowPos := (x, mY) }
  | Surface.RightWall =>
    let y := if st0.action = Action.Jumping then midY
             else if st0.dir ≥ 0 then mY - START_MARGIN else START_MARGIN
    let st1 := { st0 with windowPos := (mX, clampI y 0 mY) }
    if st1.action = Action.Jumping then
      let tX := match case.preset with
                | JumpPreset.WallToFloorPct targetPct => f32round ((mX : ℚ) * targetPct)
                | _ => st1.targetX
      { st1 with targetX := tX, dir := -1 }
    else st1
  | Surface.Ceiling =>
    let x := if st0.dir < 0 then mX - START_MARGIN else START_MARGIN
    { st0 with windowPos := (clampI x 0 mX, 0) }
  | Surface.LeftWall =>
    let y := if st0.action = Action.Jumping then midY
             else if st0.dir < 0 then START_MARGIN else mY - START_MARGIN
    let st1 := { st0 with windowPos := (0, clampI y 0 mY) }
    if st1.action = Action.Jumping then
      let tX := match case.preset with
                | JumpPreset.WallToFloorPct targetPct => f32round ((mX : ℚ) * targetPct)
                | _ => st1.targetX
      { st1 with targetX := tX, dir := 1 }
    else st1

/-- A placeholder `TestCase` for the (never taken, since the index stays below
the list length by the modulo) out-of-bounds branch of list indexing. -/
def defaultTestCase : TestCase :=
  { surface := Surface.Floor, action := Action.Move, dir := 1, dur := CASE_DUR,
    preset := JumpPreset.None }

/-- `test_driver` (src/main.rs lines 1006-1058).  The monitor dimensions and
the sheet's frame size are parameters (they come from the windowing layer).
The guard on line 1026 pauses the sequencer during flight and landing; the
sheet-size check on line 1046 waits for the asset. -/
def test_driver (dt : ℚ) (scrW scrH fw fh : ℤ) (frameW frameH : ℚ)
    (seq : TestSeq) (st : PetState) : TestSeq × PetState :=
  if st.flight ≠ FlightKind.None ∨ st.action = Action.Jumping ∨
      st.action = Action.Landing then
    (seq, st)
  else if frameW = 0 ∨ frameH = 0 then (seq, st)
  else
    let left := seq.left - dt
    if left ≤ 0 then
      let i := (seq.i + 1) % seq.cases.length
      let case := seq.cases.getD i defaultTestCase
      ({ seq with i := i, left := case.dur },
       apply_case_deterministic scrW scrH fw fh case st)
    else ({ seq with left := left }, st)

/-! ### Random driver (src/main.rs lines 1061-1110, 1339-1438) -/

/-- `apply_case_continuous` (lines 1339-1438): keeps the current position
(clamped onto the legal edge of the case's surface) and only installs jump
targets, drawing them from the RNG. -/
def apply_case_continuous (scrW scrH fw fh : ℤ) (s : ℕ) (case : TestCase)
    (st : PetState) : PetState × ℕ :=
  let st0 := resetForCase case st
  let mX := max (scrW - fw) 0
  let mY := max (scrH - fh) 0
  match st0.surface with
  | Surface.Floor =>
    let pos := (clampI st0.windowPos.1 0 mX, mY)
    let st1 := { st0 with windowPos := pos }
    if st1.action = Action.Jumping then
      let c1 := chance s (1/2)
      if c1.1 then
        let c2 := chance c1.2 (1/2)
        let toLeft := c2.1
        let wall := if toLeft then Surface.LeftWall else Surface.RightWall
        let wallX : ℤ := if toLeft then 0 else mX
        let ty := range_i32 c2.2 (i32trunc ((10/100 : ℚ) * (mY : ℚ)))
                    (i32trunc ((90/100 : ℚ) * (mY : ℚ)))
        ({ st1 with
           wallTarget := some (wall, ty.1)
           dir := if wallX ≥ pos.1 then 1 else -1 }, ty.2)
      else
        let minDx := i32trunc ((scrW : ℚ) * (10/100))
        let maxDx := i32trunc ((scrW : ℚ) * (35/100))
        let d := range_i32 c1.2 minDx maxDx
        let dx := d.1 * (if st1.dir ≥ 0 then 1 else -1)
        let tx := clampI (pos.1 + dx) 0 mX
        ({ st1 with
           targetX := tx
           dir := if tx ≥ pos.1 then 1 else -1
           wallTarget := none }, d.2)
    else (st1, s)
  | Surface.RightWall =>
    let pos := (mX, clampI st0.windowPos.2 0 mY)
    let st1 := { st0 with windowPos := pos }
    if st1.action = Action.Jumping then
      let t := range_i32 s 0 mX
      ({ st1 with targetX := t.1, dir := -1 }, t.2)
    else (st1, s)
  | Surface.Ceiling =>
    ({ st0 with windowPos := (clampI st0.windowPos.1 0 mX, 0) }, s)
  | Surface.LeftWall =>
    let pos := ((0 : ℤ), clampI st0.windowPos.2 0 mY)
    let st1 := { st0 with windowPos := pos }
    if st1.action = Action.Jumping then
      let t := range_i32 s 0 mX
      ({ st1 with targetX := t.1, dir := 1 }, t.2)
    else (st1, s)

/-- `random_driver` (src/main.rs lines 1061-1110), returning the new timer,
entity state and RNG state.  The guard on line 1076 pauses the controller
during flight and landing, before the timer is decremented. -/
def random_driver (dt : ℚ) (fw fh : ℤ) (s : ℕ) (ctrlLeft : ℚ)
    (st : PetState) : ℚ × PetState × ℕ :=
  if st.flight ≠ FlightKind.None ∨ st.action = Action.Jumping ∨
      st.action = Action.Landing then
    (ctrlLeft, st, s)
  else
    let scrW := max 1920 (fw + 2 * START_MARGIN)
    let scrH := max 1080 (fh + 2 * START_MARGIN)
    let left := ctrlLeft - dt
    if 0 < left then (left, st, s)
    else
      let cs := pick_random_case s st.surface
      let case := cs.1
      let ds : ℚ × ℕ :=
        match case.action with
        | Action.GivingFlowers => (DUR_GIVING_FLOWERS, cs.2)
        | Action.Sleeping => range_f32 cs.2 3 6
        | Action.Hiding => range_f32 cs.2 (12/10) 2
        | Action.Idle => range_f32 cs.2 2 4
        | Action.Move => range_f32 cs.2 2 4
        | Action.Climb => range_f32 cs.2 2 4
        | Action.Jumping => ((2/10 : ℚ), cs.2)
        | Action.Landing => ((2/10 : ℚ), cs.2)
      let ap := apply_case_continuous scrW scrH fw fh ds.2 case st
      (ds.1, ap.1, ap.2)

/-! ### Continuous flight trajectory

`st.vy += GRAVITY*dt; pos += v*dt` (lines 799-801) is the semi-implicit Euler
discretisation of constant-gravity projectile motion; its exact (continuous
time) solution is the parabola below, which is what the spec's
"within floating rounding tolerance" statements are about. -/

def flightX (x0 vx t : ℚ) : ℚ := x0 + vx * t
def flightY (y0 vy0 t : ℚ) : ℚ := y0 + vy0 * t + 1/2 * GRAVITY * t ^ 2

/-- The wall-takeoff time solver (src/main.rs lines 773-784) over `ℝ`, with
the genuine square root in place of `f32::sqrt`:
`disc = b² − 4ac` with `a = 0.5·GRAVITY`, `b = WALL_JUMP_VY0`,
`c = y0 − floor_y`; the positive root `(−b + √disc)/(2a)` when `disc ≥ 0`. -/
noncomputable def wallJumpT (y0 floorY : ℝ) : ℝ :=
  let c := y0 - floorY
  let a := 1/2 * ((GRAVITY : ℚ) : ℝ)
  let b := ((WALL_JUMP_VY0 : ℚ) : ℝ)
  let disc := b * b - 4 * a * c
  if 0 ≤ disc then (-b + Real.sqrt disc) / (2 * a) else 1

/-- `st.vx = if t > 0.0 { dx / t } else { 0.0 }` (line 787) over `ℝ`. -/
noncomputable def wallJumpVx (tX x0 t : ℝ) : ℝ :=
  if 0 < t then (tX - x0) / t else 0

noncomputable def flightXr (x0 vx t : ℝ) : ℝ := x0 + vx * t
noncomputable def flightYr (y0 vy0 t : ℝ) : ℝ :=
  y0 + vy0 * t + 1/2 * ((GRAVITY : ℚ) : ℝ) * t ^ 2

/-! ## Supporting lemmas -/

theorem maxX_ge (fw : ℤ) : 80 ≤ maxX fw := by
  have h := le_max_right (1920 : ℤ) (fw + 2 * START_MARGIN)
  simp only [maxX, screenW, START_MARGIN] at *
  omega

theorem maxY_ge (fh : ℤ) : 80 ≤ maxY fh := by
  have h := le_max_right (1080 : ℤ) (fh + 2 * START_MARGIN)
  simp only [maxY, screenH, START_MARGIN] at *
  omega

theorem clampI_nonneg (v hi : ℤ) (h : 0 ≤ hi) : 0 ≤ clampI v 0 hi := by
  simp only [clampI, le_min_iff, le_max_iff]
  omega

theorem clampI_le_hi (v hi : ℤ) : clampI v 0 hi ≤ hi := min_le_right _ _

theorem clampI_eq_hi (v hi : ℤ) (h : hi ≤ v) : clampI v 0 hi = hi := by
  simp only [clampI]
  omega

theorem clampI_ge_iff (v hi : ℤ) (h0 : 0 < hi) : hi ≤ clampI v 0 hi ↔ hi ≤ v := by
  simp only [clampI]
  omega

theorem clampI_clampI (v m : ℤ) : clampI (clampI v 0 m) 0 m = clampI v 0 m := by
  simp only [clampI]
  omega

theorem clampI_zero (m : ℤ) (h : 0 ≤ m) : clampI 0 0 m = 0 := by
  simp only [clampI]
  omega

/-! ## Claim theorems -/

/-- C10: at the end of every per-tick motion update — any mode, any surface,
any action, in flight or not, and for every square-root oracle — the stored
window position lies inside the virtual screen rectangle:
`0 ≤ x ≤ max_x` and `0 ≤ y ≤ max_y` with `max_x = screen_w − window_w`,
`max_y = screen_h − window_h`. -/
theorem step_window_pos_in_bounds (sqrtQ : ℚ → ℚ) (dt : ℚ) (fw fh : ℤ)
    (st : PetState) :
    0 ≤ (apply_motion_and_orientation sqrtQ dt fw fh st).windowPos.1 ∧
    (apply_motion_and_orientation sqrtQ dt fw fh st).windowPos.1 ≤ maxX fw ∧
    0 ≤ (apply_motion_and_orientation sqrtQ dt fw fh st).windowPos.2 ∧
    (apply_motion_and_orientation sqrtQ dt fw fh st).windowPos.2 ≤ maxY fh := by
  have hpos : (apply_motion_and_orientation sqrtQ dt fw fh st).windowPos =
      (clampI (motionCore sqrtQ (maxX fw) (maxY fh) dt st).windowPos.1 0 (maxX fw),
       clampI (motionCore sqrtQ (maxX fw) (maxY fh) dt st).windowPos.2 0 (maxY fh)) := rfl
  rw [hpos]
  have hx := maxX_ge fw
  have hy := maxY_ge fh
  exact ⟨clampI_nonneg _ _ (by omega), clampI_le_hi _ _,
    clampI_nonneg _ _ (by omega), clampI_le_hi _ _⟩

/-- C8: for every `(surface, action, direction)` input the visual lookup
returns a row index in `[0, 9)` whose configured frame count is positive, and
every `(surface, action)` pair without an explicit match arm falls back to the
default idle row. -/
theorem visual_row_valid (s : Surface) (a : Action) (d : ℚ) :
    ((set_visual_for s a d).row < 9 ∧
      0 < ROW_FRAMES.getD (set_visual_for s a d).row 0) ∧
    ((s, a) ∉ mappedVisualPairs →
      set_visual_for s a d = ⟨ROW_IDLE1, FPS_IDLE, 0, false, false⟩) := by
  cases s <;> cases a <;>
    refine ⟨by constructor <;> norm_num [set_visual_for, ROW_FRAMES, ROW_IDLE1,
      ROW_WALK_R, ROW_GIVING_FLOWERS, ROW_JUMP_R, ROW_LAND_R, ROW_SLEEP,
      ROW_HIDE, ROW_CLIMB_R], fun h => ?_⟩ <;>
    first
      | rfl
      | exact absurd (by decide) h

/-- Witness for C8's fallback hypothesis: `(Ceiling, Jumping)` has no match
arm and yields the idle row. -/
theorem visual_row_valid_witness :
    (Surface.Ceiling, Action.Jumping) ∉ mappedVisualPairs ∧
    set_visual_for Surface.Ceiling Action.Jumping 1 =
      ⟨ROW_IDLE1, FPS_IDLE, 0, false, false⟩ :=
  ⟨by decide, (visual_row_valid Surface.Ceiling Action.Jumping 1).2 (by decide)⟩

/-- C7: once a row has been set, the frame index stays within
`[start_index, start_index + len)` after every animation tick: a non-firing
tick leaves it unchanged, a firing tick lands inside the row, an index found
outside the active row is reset to the row start before advancing, the
advancement wraps from the row's last frame back to its first, and
`set_anim_if_changed` either leaves the state alone or establishes an
in-range index (the row start) together with a positive frame count. -/
theorem anim_frame_in_row (a : Anim) (index row : ℕ) (fps : ℚ) :
    (0 < a.len →
      a.start_index ≤ animate_sprite_index true a index ∧
      animate_sprite_index true a index < a.start_index + a.len) ∧
    animate_sprite_index false a index = index ∧
    (0 < a.len → (index < a.start_index ∨ index ≥ a.start_index + a.len) →
      animate_sprite_index true a index =
        animate_sprite_index true a a.start_index) ∧
    (0 < a.len → index = a.start_index + a.len - 1 →
      animate_sprite_index true a index = a.start_index) ∧
    (row < 9 →
      set_anim_if_changed a index row fps = (a, index) ∨
      ((set_anim_if_changed a index row fps).2 =
          (set_anim_if_changed a index row fps).1.start_index ∧
        (set_anim_if_changed a index row fps).1.len = ROW_FRAMES.getD row 0 ∧
        0 < (set_anim_if_changed a index row fps).1.len)) := by
  refine ⟨?_, ?_, ?_, ?_, ?_⟩
  · intro hlen
    simp only [animate_sprite_index, hlen, and_true, if_true]
    split_ifs <;> omega
  · simp [animate_sprite_index]
  · intro hlen hout
    simp only [animate_sprite_index, hlen, and_true, if_true]
    have h1 : (index < a.start_index ∨ index ≥ a.start_index + a.len) = True := by
      simp [hout]
    have h2 : ¬(a.start_index < a.start_index ∨
        a.start_index ≥ a.start_index + a.len) := by omega
    simp [h1, h2]
  · intro hlen hidx
    simp only [animate_sprite_index, hlen, and_true, if_true]
    have hin : ¬(index < a.start_index ∨ index ≥ a.start_index + a.len) := by omega
    simp only [hin, if_neg, not_false_iff, if_false]
    have : index - a.start_index ≥ a.len - 1 := by omega
    simp [this]
  · intro hrow
    have hfc : 0 < ROW_FRAMES.getD row 0 := by
      interval_cases row <;> decide
    unfold set_anim_if_changed
    dsimp only
    split_ifs with h
    · exact Or.inr ⟨rfl, rfl, hfc⟩
    · exact Or.inl rfl

/-- C9: applying a new random-driver case never teleports the window: the
position changes only along the axis fixed by the case's surface (floor pins
`y = max_y`, ceiling pins `y = 0`, walls pin `x` to their edge) while the free
coordinate is the old one, at most clamped into the screen bounds. -/
theorem continuous_case_keeps_position (scrW scrH fw fh : ℤ) (s : ℕ)
    (case : TestCase) (st : PetState) :
    (apply_case_continuous scrW scrH fw fh s case st).1.windowPos =
      (match case.surface with
       | Surface.Floor =>
           (clampI st.windowPos.1 0 (max (scrW - fw) 0), max (scrH - fh) 0)
       | Surface.RightWall =>
           (max (scrW - fw) 0, clampI st.windowPos.2 0 (max (scrH - fh) 0))
       | Surface.Ceiling =>
           (clampI st.windowPos.1 0 (max (scrW - fw) 0), 0)
       | Surface.LeftWall =>
           ((0 : ℤ), clampI st.windowPos.2 0 (max (scrH - fh) 0))) := by
  obtain ⟨cs, ca, cd, cdur, cp⟩ := case
  cases cs <;>
    simp only [apply_case_continuous, resetForCase] <;>
    split_ifs <;> rfl

/-- Consecutive ticks of the landing-hold logic (src/main.rs lines 993-999,
the `landingHoldStep` inside `apply_motion_and_orientation`), starting from
the `landing_left = LANDING_HOLD` installed at touchdown (line 869). -/
def landingHoldRun (dts : List ℚ) : Action × ℚ :=
  dts.foldl (fun p dt => landingHoldStep p.1 p.2 dt) (Action.Landing, LANDING_HOLD)

theorem landingHold_foldl_move (dts : List ℚ) (l : ℚ) :
    dts.foldl (fun p dt => landingHoldStep p.1 p.2 dt) (Action.Move, l) =
      (Action.Move, l) := by
  induction dts with
  | nil => rfl
  | cons d tl ih => simpa [landingHoldStep] using ih

theorem landingHold_foldl_landing (dts : List ℚ) (rem : ℚ) (hrem : 0 < rem)
    (hnn : ∀ d ∈ dts, 0 ≤ d) :
    ((dts.foldl (fun p dt => landingHoldStep p.1 p.2 dt)
        (Action.Landing, rem)).1 = Action.Landing) ↔ dts.sum < rem := by
  induction dts generalizing rem with
  | nil => simpa using hrem
  | cons d tl ih =>
    have hd : 0 ≤ d := hnn d (List.mem_cons_self d tl)
    have htl : ∀ x ∈ tl, 0 ≤ x := fun x hx => hnn x (List.mem_cons_of_mem d hx)
    have htls : 0 ≤ tl.sum := List.sum_nonneg htl
    simp only [List.foldl_cons, List.sum_cons]
    by_cases hflip : rem - d ≤ 0
    · have hstep : landingHoldStep Action.Landing rem d = (Action.Move, rem - d) := by
        simp [landingHoldStep, hflip]
      rw [hstep, landingHold_foldl_move]
      constructor
      · intro h
        simp at h
      · intro h
        exact absurd h (by simp only [not_lt]; linarith)
    · have hstep : landingHoldStep Action.Landing rem d = (Action.Landing, rem - d) := by
        simp [landingHoldStep, hflip]
      rw [hstep, ih (rem - d) (by linarith) htl]
      constructor <;> intro h <;> linarith

theorem landingHold_foldl_action (dts : List ℚ) (a : Action) (l : ℚ)
    (h : a = Action.Landing ∨ a = Action.Move) :
    (dts.foldl (fun p dt => landingHoldStep p.1 p.2 dt) (a, l)).1 =
        Action.Landing ∨
      (dts.foldl (fun p dt => landingHoldStep p.1 p.2 dt) (a, l)).1 =
        Action.Move := by
  induction dts generalizing a l with
  | nil => exact h
  | cons d tl ih =>
    rw [List.foldl_cons]
    rcases h with h | h <;> subst h <;> simp only [landingHoldStep] <;>
      split_ifs <;> apply ih <;> simp

/-- C4: after a floor touchdown the action stays `Landing` exactly while the
accumulated tick time is still below `LANDING_HOLD` (so the hold lasts the
configured duration up to one tick's slack), and once the accumulated time
reaches the hold duration — the timer hits zero — the action reverts to
`Move`. -/
theorem landing_hold_duration (dts : List ℚ) (hnn : ∀ d ∈ dts, 0 ≤ d) :
    ((landingHoldRun dts).1 = Action.Landing ↔ dts.sum < LANDING_HOLD) ∧
    (LANDING_HOLD ≤ dts.sum → (landingHoldRun dts).1 = Action.Move) := by
  have hmain := landingHold_foldl_landing dts LANDING_HOLD
    (by norm_num [LANDING_HOLD]) hnn
  refine ⟨hmain, fun hge => ?_⟩
  rcases landingHold_foldl_action dts Action.Landing LANDING_HOLD (Or.inl rfl) with h | h
  · rw [hmain] at h
    linarith
  · exact h

/-- Witness for C4 at the tick list `[1/4, 1/8]` (still holding) — both
hypotheses discharged concretely. -/
theorem landing_hold_duration_witness :
    (∀ d ∈ [(1 : ℚ)/4, 1/8], 0 ≤ d) ∧
    (((landingHoldRun [(1 : ℚ)/4, 1/8]).1 = Action.Landing ↔
        ([(1 : ℚ)/4, 1/8].sum < LANDING_HOLD)) ∧
      (LANDING_HOLD ≤ [(1 : ℚ)/4, 1/8].sum →
        (landingHoldRun [(1 : ℚ)/4, 1/8]).1 = Action.Move)) := by
  have hnn : ∀ d ∈ [(1 : ℚ)/4, 1/8], 0 ≤ d := by
    intro d hd
    fin_cases hd <;> norm_num
  exact ⟨hnn, landing_hold_duration [(1 : ℚ)/4, 1/8] hnn⟩

/-- C5: while the entity reports an active flight or a `Jumping`/`Landing`
action, both drivers return all their state unchanged — no timer decrement,
no case-index advance, no entity-state or position change; once the guard is
down, the test driver's expiring timer advances the case index `i ↦ (i+1) mod
len`, and the random driver's timer resumes counting down. -/
theorem driver_pauses_during_flight (dt : ℚ) (scrW scrH fw fh : ℤ)
    (frameW frameH : ℚ) (seq : TestSeq) (s : ℕ) (ctrlLeft : ℚ)
    (st : PetState) :
    ((st.flight ≠ FlightKind.None ∨ st.action = Action.Jumping ∨
        st.action = Action.Landing) →
      test_driver dt scrW scrH fw fh frameW frameH seq st = (seq, st) ∧
      random_driver dt fw fh s ctrlLeft st = (ctrlLeft, st, s)) ∧
    (¬(st.flight ≠ FlightKind.None ∨ st.action = Action.Jumping ∨
        st.action = Action.Landing) →
      (frameW ≠ 0 → frameH ≠ 0 → seq.left - dt ≤ 0 →
        (test_driver dt scrW scrH fw fh frameW frameH seq st).1.i =
          (seq.i + 1) % seq.cases.length) ∧
      (0 < ctrlLeft - dt →
        random_driver dt fw fh s ctrlLeft st = (ctrlLeft - dt, st, s))) := by
  constructor
  · intro hg
    constructor
    · unfold test_driver
      rw [if_pos hg]
    · unfold random_driver
      rw [if_pos hg]
  · intro hg
    constructor
    · intro hW hH hleft
      unfold test_driver
      rw [if_neg hg, if_neg (by simp [hW, hH])]
      dsimp only
      rw [if_pos hleft]
    · intro hctrl
      unfold random_driver
      rw [if_neg hg]
      dsimp only
      rw [if_pos hctrl]

/-- Sample states for the C5 witness: one airborne, one grounded. -/
def stAirborne : PetState :=
  { surface := Surface.Floor, action := Action.Jumping, dir := 1,
    windowPos := (100, 500), flight := FlightKind.Parabola,
    flightFrom := Surface.Floor, vx := 10, vy := 0, landingLeft := 0,
    targetX := 200, wallTarget := none }

def stGrounded : PetState :=
  { surface := Surface.Floor, action := Action.Move, dir := 1,
    windowPos := (100, 1016), flight := FlightKind.None,
    flightFrom := Surface.Floor, vx := 0, vy := 0, landingLeft := 0,
    targetX := 0, wallTarget := none }

def seqSample : TestSeq := { cases := [defaultTestCase], i := 0, left := 1/10 }

/-- Witness for C5: the airborne state freezes both drivers; the grounded
state with an expired timer advances the test sequencer and lets the random
controller count down. -/
theorem driver_pauses_during_flight_witness :
    (stAirborne.flight ≠ FlightKind.None ∨ stAirborne.action = Action.Jumping ∨
      stAirborne.action = Action.Landing) ∧
    test_driver (1/10) 1920 1080 64 64 32 32 seqSample stAirborne =
      (seqSample, stAirborne) ∧
    ¬(stGrounded.flight ≠ FlightKind.None ∨ stGrounded.action = Action.Jumping ∨
      stGrounded.action = Action.Landing) ∧
    (test_driver (1/10) 1920 1080 64 64 32 32 seqSample stGrounded).1.i =
      (seqSample.i + 1) % seqSample.cases.length ∧
    random_driver (1/10) 64 64 7 1 stGrounded = (1 - 1/10, stGrounded, 7) := by
  refine ⟨by decide, ?_, by decide, ?_, ?_⟩
  · exact ((driver_pauses_during_flight (1/10) 1920 1080 64 64 32 32 seqSample 7 1
      stAirborne).1 (by decide)).1
  · exact ((driver_pauses_during_flight (1/10) 1920 1080 64 64 32 32 seqSample 7 1
      stGrounded).2 (by decide)).1 (by norm_num) (by norm_num)
      (by norm_num [seqSample])
  · exact ((driver_pauses_during_flight (1/10) 1920 1080 64 64 32 32 seqSample 7 1
      stGrounded).2 (by decide)).2 (by norm_num)

/-- C6: an entity on the ceiling never enters flight.  A `Jumping` action on
the ceiling applies no physics: the flight stays `None`, the velocities,
surface and action are untouched, and the position is merely pinned to the
ceiling line (the motion tick is visual only).  And the random driver never
picks `Jumping` on the ceiling: only `Climb` or `Hiding`. -/
theorem ceiling_jump_disabled (sqrtQ : ℚ → ℚ) (dt : ℚ) (fw fh : ℤ)
    (st : PetState) (r : ℕ) :
    (st.surface = Surface.Ceiling → st.action = Action.Jumping →
      st.flight = FlightKind.None →
      (apply_motion_and_orientation sqrtQ dt fw fh st).flight =
          FlightKind.None ∧
        (apply_motion_and_orientation sqrtQ dt fw fh st).surface =
          Surface.Ceiling ∧
        (apply_motion_and_orientation sqrtQ dt fw fh st).action =
          Action.Jumping ∧
        (apply_motion_and_orientation sqrtQ dt fw fh st).vx = st.vx ∧
        (apply_motion_and_orientation sqrtQ dt fw fh st).vy = st.vy ∧
        (apply_motion_and_orientation sqrtQ dt fw fh st).windowPos =
          (clampI st.windowPos.1 0 (maxX fw), 0)) ∧
    ((pick_random_case r Surface.Ceiling).1.action = Action.Climb ∨
      (pick_random_case r Surface.Ceiling).1.action = Action.Hiding) := by
  constructor
  · intro hs ha hf
    obtain ⟨surf, act, dir, pos, fl, ff, vx, vy, ll, tx, wt⟩ := st
    simp only at hs ha hf
    subst hs; subst ha; subst hf
    have hmY : (0 : ℤ) ≤ maxY fh := le_trans (by norm_num) (maxY_ge fh)
    simp [apply_motion_and_orientation, motionCore, takeoffPhase,
      surfacePhase, flightPhase, landingHoldStep, clampI_clampI,
      clampI_zero _ hmY]
  · unfold pick_random_case
    by_cases hc : (chance r (30/100)).1
    · right
      simp [hc]
    · left
      simp [hc]

/-- Sample on-ceiling jumping state for the C6 witness. -/
def stCeilingJump : PetState :=
  { surface := Surface.Ceiling, action := Action.Jumping, dir := 1,
    windowPos := (500, 0), flight := FlightKind.None,
    flightFrom := Surface.Ceiling, vx := 3, vy := 4, landingLeft := 0,
    targetX := 0, wallTarget := none }

/-- Witness for C6: a concrete jumping-on-ceiling state, hypotheses
discharged by `rfl`. -/
theorem ceiling_jump_disabled_witness :
    stCeilingJump.surface = Surface.Ceiling ∧
    stCeilingJump.action = Action.Jumping ∧
    stCeilingJump.flight = FlightKind.None ∧
    ((apply_motion_and_orientation (fun _ => 0) (1/10) 64 64
        stCeilingJump).flight = FlightKind.None ∧
      (apply_motion_and_orientation (fun _ => 0) (1/10) 64 64
        stCeilingJump).surface = Surface.Ceiling ∧
      (apply_motion_and_orientation (fun _ => 0) (1/10) 64 64
        stCeilingJump).action = Action.Jumping ∧
      (apply_motion_and_orientation (fun _ => 0) (1/10) 64 64
        stCeilingJump).vx = stCeilingJump.vx ∧
      (apply_motion_and_orientation (fun _ => 0) (1/10) 64 64
        stCeilingJump).vy = stCeilingJump.vy ∧
      (apply_motion_and_orientation (fun _ => 0) (1/10) 64 64
        stCeilingJump).windowPos =
        (clampI stCeilingJump.windowPos.1 0 (maxX 64), 0)) :=
  ⟨rfl, rfl, rfl,
    (ceiling_jump_disabled (fun _ => 0) (1/10) 64 64 stCeilingJump 7).1
      rfl rfl rfl⟩

/-! ### Touchdown lemmas for the flight branch -/

theorem takeoffPhase_inflight (sqrtQ : ℚ → ℚ) (mX mY : ℤ) (st : PetState)
    (h : st.flight = FlightKind.Parabola) :
    takeoffPhase sqrtQ mX mY st = st := by
  unfold takeoffPhase
  rw [if_neg]
  simp [h]

/-- When an active parabola with no wall target reaches the floor line this
tick, the flight branch lands: it snaps `x` to the clamped floor target, pins
`y` to the floor line, switches to `Landing`, applies the takeoff-surface
facing rule and installs the `LANDING_HOLD` timer. -/
theorem flightPhase_touchdown (mX mY : ℤ) (dt : ℚ) (st : PetState)
    (hfl : st.flight = FlightKind.Parabola)
    (hwt : st.wallTarget = none)
    (hy : mY ≤ i32trunc ((st.windowPos.2 : ℚ) + (st.vy + GRAVITY * dt) * dt)) :
    flightPhase mX mY dt st =
      { st with
        flight := FlightKind.None
        surface := Surface.Floor
        action := Action.Landing
        dir := (match st.flightFrom with
                | Surface.RightWall => -1
                | Surface.LeftWall => 1
                | _ => if 0 ≤ st.vx then 1 else -1)
        vy := st.vy + GRAVITY * dt
        windowPos := (clampI st.targetX 0 mX, mY)
        landingLeft := LANDING_HOLD
        wallTarget := none } := by
  obtain ⟨surf, act, dir, ⟨px0, py0⟩, fl, ff, vx, vy, ll, tx, wt⟩ := st
  simp only at hfl hwt hy ⊢
  subst hfl; subst hwt
  have hpy : clampI (i32trunc ((py0 : ℚ) + (vy + GRAVITY * dt) * dt)) 0 mY = mY :=
    clampI_eq_hi _ _ hy
  unfold flightPhase
  dsimp only
  rw [if_pos ⟨by simp, le_of_eq hpy.symm⟩, hpy]

theorem motionCore_inflight (sqrtQ : ℚ → ℚ) (mX mY : ℤ) (dt : ℚ)
    (st : PetState) (hfl : st.flight = FlightKind.Parabola) :
    motionCore sqrtQ mX mY dt st = flightPhase mX mY dt st := by
  unfold motionCore
  rw [takeoffPhase_inflight sqrtQ mX mY st hfl, if_pos (by simp [hfl])]

/-- C3: whenever a flight terminates by reaching the floor line, the step
snaps `x` to the stored floor target (clamped to the screen), pins `y` to the
floor, switches the action to `Landing`, starts the fixed-duration hold
(`landing_left = LANDING_HOLD`, already ticked down by this tick's `dt`), and
faces by the takeoff-surface rule — `RightWall → −1`, `LeftWall → +1`,
otherwise the sign of the horizontal velocity; and during the hold the
character slides along the floor at the constant drift speed. -/
theorem floor_landing_behavior (sqrtQ : ℚ → ℚ) (dt : ℚ) (fw fh : ℤ)
    (st : PetState) :
    (st.flight = FlightKind.Parabola → st.wallTarget = none →
      maxY fh ≤ i32trunc ((st.windowPos.2 : ℚ) + (st.vy + GRAVITY * dt) * dt) →
      dt < LANDING_HOLD →
      (apply_motion_and_orientation sqrtQ dt fw fh st).action =
          Action.Landing ∧
        (apply_motion_and_orientation sqrtQ dt fw fh st).flight =
          FlightKind.None ∧
        (apply_motion_and_orientation sqrtQ dt fw fh st).surface =
          Surface.Floor ∧
        (apply_motion_and_orientation sqrtQ dt fw fh st).windowPos =
          (clampI st.targetX 0 (maxX fw), maxY fh) ∧
        (apply_motion_and_orientation sqrtQ dt fw fh st).landingLeft =
          LANDING_HOLD - dt ∧
        (apply_motion_and_orientation sqrtQ dt fw fh st).dir =
          (match st.flightFrom with
           | Surface.RightWall => -1
           | Surface.LeftWall => 1
           | _ => if 0 ≤ st.vx then 1 else -1)) ∧
    (st.flight = FlightKind.None → st.surface = Surface.Floor →
      st.action = Action.Landing →
      (apply_motion_and_orientation sqrtQ dt fw fh st).windowPos =
        (clampI (i32trunc ((st.windowPos.1 : ℚ) + LANDING_DRIFT * st.dir * dt))
            0 (maxX fw),
          maxY fh)) := by
  constructor
  · intro hfl hwt hy hdt
    have hland := flightPhase_touchdown (maxX fw) (maxY fh) dt st hfl hwt hy
    have hp : landingHoldStep Action.Landing LANDING_HOLD dt =
        (Action.Landing, LANDING_HOLD - dt) := by
      unfold landingHoldStep
      rw [if_pos rfl]
      dsimp only
      rw [if_neg (not_le.mpr (sub_pos.mpr hdt))]
    unfold apply_motion_and_orientation
    dsimp only
    rw [motionCore_inflight sqrtQ (maxX fw) (maxY fh) dt st hfl, hland]
    dsimp only
    rw [hp]
    refine ⟨rfl, rfl, rfl, ?_, rfl, rfl⟩
    rw [Prod.ext_iff]
    exact ⟨clampI_clampI _ _, clampI_eq_hi _ _ le_rfl⟩
  · intro hfl hsurf hact
    obtain ⟨surf, act, dir, ⟨px0, py0⟩, fl, ff, vx, vy, ll, tx, wt⟩ := st
    simp only at hfl hsurf hact ⊢
    subst hfl; subst hsurf; subst hact
    simp [apply_motion_and_orientation, motionCore, takeoffPhase,
      surfacePhase, landingHoldStep, clampI_eq_hi (maxY fh) (maxY fh) le_rfl]

/-- Sample in-flight state reaching the floor this tick (for the C3
witness). -/
def stFalling : PetState :=
  { surface := Surface.Floor, action := Action.Jumping, dir := 1,
    windowPos := (100, 900), flight := FlightKind.Parabola,
    flightFrom := Surface.RightWall, vx := 800, vy := 1200, landingLeft := 0,
    targetX := 900, wallTarget := none }

/-- Sample landing-hold state on the floor (for the C3 witness). -/
def stLanding : PetState :=
  { surface := Surface.Floor, action := Action.Landing, dir := -1,
    windowPos := (500, 1016), flight := FlightKind.None,
    flightFrom := Surface.RightWall, vx := 0, vy := 0, landingLeft := 2/5,
    targetX := 500, wallTarget := none }

/-- Witness for C3: a concrete touchdown tick and a concrete landing-drift
tick. -/
theorem floor_landing_behavior_witness :
    maxY 64 ≤ i32trunc ((stFalling.windowPos.2 : ℚ) +
      (stFalling.vy + GRAVITY * (1/10)) * (1/10)) ∧
    (1/10 : ℚ) < LANDING_HOLD ∧
    (apply_motion_and_orientation (fun _ => 0) (1/10) 64 64 stFalling).action =
      Action.Landing ∧
    (apply_motion_and_orientation (fun _ => 0) (1/10) 64 64
      stFalling).windowPos = (clampI stFalling.targetX 0 (maxX 64), maxY 64) ∧
    (apply_motion_and_orientation (fun _ => 0) (1/10) 64 64
      stLanding).windowPos =
      (clampI (i32trunc ((stLanding.windowPos.1 : ℚ) +
          LANDING_DRIFT * stLanding.dir * (1/10))) 0 (maxX 64), maxY 64) := by
  have h1 : maxY 64 ≤ i32trunc ((stFalling.windowPos.2 : ℚ) +
      (stFalling.vy + GRAVITY * (1/10)) * (1/10)) := by
    norm_num [maxY, screenH, START_MARGIN, i32trunc, stFalling, GRAVITY]
  have h2 : (1/10 : ℚ) < LANDING_HOLD := by norm_num [LANDING_HOLD]
  have happ := floor_landing_behavior (fun _ => 0) (1/10) 64 64 stFalling
  have happ2 := floor_landing_behavior (fun _ => 0) (1/10) 64 64 stLanding
  exact ⟨h1, h2, (happ.1 rfl rfl h1 h2).1, (happ.1 rfl rfl h1 h2).2.2.2.1,
    happ2.2 rfl rfl rfl⟩

/-- C1: for a floor-to-floor jump (takeoff from the floor with no wall
target) the computed flight time is `t = 2·|FLOOR_JUMP_VY0|/GRAVITY`, the
initial horizontal velocity is `(target_x − start_x)/t`, the exact flight arc
returns to the takeoff height precisely at time `t` (strictly above the floor
at every earlier moment, so the elapsed flight time is `t`) with horizontal
position exactly the target; and when the discrete flight ends at the floor
line, the stored `x` is the floor target clamped to the screen. -/
theorem floor_jump_flight (tX pX : ℤ) (y0 : ℚ) (sqrtQ : ℚ → ℚ) (dt : ℚ)
    (fw fh : ℤ) (st : PetState) :
    2 * (-FLOOR_JUMP_VY0) / GRAVITY = 2 * |FLOOR_JUMP_VY0| / GRAVITY ∧
    (floorJumpVel tX pX).1 =
      ((tX : ℚ) - (pX : ℚ)) / (2 * |FLOOR_JUMP_VY0| / GRAVITY) ∧
    (floorJumpVel tX pX).2 = FLOOR_JUMP_VY0 ∧
    flightX (pX : ℚ) (floorJumpVel tX pX).1 (2 * |FLOOR_JUMP_VY0| / GRAVITY) =
      (tX : ℚ) ∧
    flightY y0 FLOOR_JUMP_VY0 (2 * |FLOOR_JUMP_VY0| / GRAVITY) = y0 ∧
    (∀ s : ℚ, 0 < s → s < 2 * |FLOOR_JUMP_VY0| / GRAVITY →
      flightY y0 FLOOR_JUMP_VY0 s < y0) ∧
    (st.flight = FlightKind.Parabola → st.wallTarget = none →
      maxY fh ≤ i32trunc ((st.windowPos.2 : ℚ) + (st.vy + GRAVITY * dt) * dt) →
      (apply_motion_and_orientation sqrtQ dt fw fh st).windowPos =
        (clampI st.targetX 0 (maxX fw), maxY fh)) := by
  have ht : 2 * |FLOOR_JUMP_VY0| / GRAVITY = (1 : ℚ) := by
    norm_num [FLOOR_JUMP_VY0, GRAVITY]
  refine ⟨by norm_num [FLOOR_JUMP_VY0, GRAVITY], ?_, rfl, ?_, ?_, ?_, ?_⟩
  · rw [ht]
    norm_num [floorJumpVel, FLOOR_JUMP_VY0, GRAVITY]
  · rw [ht]
    simp only [flightX, floorJumpVel, FLOOR_JUMP_VY0, GRAVITY]
    norm_num
  · rw [ht]
    simp only [flightY, FLOOR_JUMP_VY0, GRAVITY]
    ring
  · intro s hs0 hs1
    rw [ht] at hs1
    simp only [flightY, FLOOR_JUMP_VY0, GRAVITY]
    nlinarith [mul_pos hs0 (sub_pos.mpr hs1)]
  · intro hfl hwt hy
    have hland := flightPhase_touchdown (maxX fw) (maxY fh) dt st hfl hwt hy
    unfold apply_motion_and_orientation
    dsimp only
    rw [motionCore_inflight sqrtQ (maxX fw) (maxY fh) dt st hfl, hland]
    dsimp only
    rw [Prod.ext_iff]
    exact ⟨clampI_clampI _ _, clampI_eq_hi _ _ le_rfl⟩

/-- Sample in-flight floor-jump state reaching the floor this tick (for the
C1 witness). -/
def stArrive : PetState :=
  { surface := Surface.Floor, action := Action.Jumping, dir := 1,
    windowPos := (800, 950), flight := FlightKind.Parabola,
    flightFrom := Surface.Floor, vx := 720, vy := 1300, landingLeft := 0,
    targetX := 872, wallTarget := none }

/-- Witness for C1: concrete arc sample at `s = 1/2` and a concrete discrete
touchdown. -/
theorem floor_jump_flight_witness :
    ((0 : ℚ) < 1/2 ∧ (1/2 : ℚ) < 2 * |FLOOR_JUMP_VY0| / GRAVITY ∧
      flightY 1016 FLOOR_JUMP_VY0 (1/2) < 1016) ∧
    flightX ((100 : ℤ) : ℚ) (floorJumpVel 900 100).1
      (2 * |FLOOR_JUMP_VY0| / GRAVITY) = ((900 : ℤ) : ℚ) ∧
    (maxY 64 ≤ i32trunc ((stArrive.windowPos.2 : ℚ) +
        (stArrive.vy + GRAVITY * (1/10)) * (1/10)) ∧
      (apply_motion_and_orientation (fun _ => 0) (1/10) 64 64
        stArrive).windowPos = (clampI stArrive.targetX 0 (maxX 64), maxY 64)) := by
  have hy : maxY 64 ≤ i32trunc ((stArrive.windowPos.2 : ℚ) +
      (stArrive.vy + GRAVITY * (1/10)) * (1/10)) := by
    norm_num [maxY, screenH, START_MARGIN, i32trunc, stArrive, GRAVITY]
  have h0 : (0 : ℚ) < 1/2 := by norm_num
  have h1 : (1/2 : ℚ) < 2 * |FLOOR_JUMP_VY0| / GRAVITY := by
    norm_num [FLOOR_JUMP_VY0, GRAVITY]
  refine ⟨⟨h0, h1, ?_⟩, ?_, hy, ?_⟩
  · exact (floor_jump_flight 900 100 1016 (fun _ => 0) (1/10) 64 64
      stArrive).2.2.2.2.2.1 (1/2) h0 h1
  · exact (floor_jump_flight 900 100 1016 (fun _ => 0) (1/10) 64 64
      stArrive).2.2.2.1
  · exact (floor_jump_flight 900 100 1016 (fun _ => 0) (1/10) 64 64
      stArrive).2.2.2.2.2.2 rfl rfl hy

/-- C2: for a jump taken off a wall, the computed flight time is the positive
root of `0.5·GRAVITY·t² + WALL_JUMP_VY0·t + (y0 − floor_y) = 0` (`y0` the
takeoff height, `floor_y = max_y`), the horizontal velocity is
`(target_x − x0)/t`, and the exact flight arc ends on the floor line at the
target `x`: at time `t` the height is exactly `floor_y` (strictly above it at
every earlier moment) and the horizontal position is exactly `target_x`. -/
theorem wall_jump_flight (y0 floorY x0 tX : ℝ) (h : y0 ≤ floorY) :
    0 < wallJumpT y0 floorY ∧
    1/2 * ((GRAVITY : ℚ) : ℝ) * wallJumpT y0 floorY ^ 2 +
      ((WALL_JUMP_VY0 : ℚ) : ℝ) * wallJumpT y0 floorY + (y0 - floorY) = 0 ∧
    wallJumpVx tX x0 (wallJumpT y0 floorY) = (tX - x0) / wallJumpT y0 floorY ∧
    flightXr x0 (wallJumpVx tX x0 (wallJumpT y0 floorY))
      (wallJumpT y0 floorY) = tX ∧
    flightYr y0 ((WALL_JUMP_VY0 : ℚ) : ℝ) (wallJumpT y0 floorY) = floorY ∧
    (∀ s : ℝ, 0 < s → s < wallJumpT y0 floorY →
      flightYr y0 ((WALL_JUMP_VY0 : ℚ) : ℝ) s < floorY) := by
  have hG : ((GRAVITY : ℚ) : ℝ) = 1800 := by norm_num [GRAVITY]
  have hB : ((WALL_JUMP_VY0 : ℚ) : ℝ) = -880 := by norm_num [WALL_JUMP_VY0]
  have hdisc : (0 : ℝ) ≤ 774400 - 3600 * (y0 - floorY) := by nlinarith
  have hsq := Real.sq_sqrt hdisc
  have hsnn := Real.sqrt_nonneg (774400 - 3600 * (y0 - floorY))
  have hs880 : (880 : ℝ) ≤ Real.sqrt (774400 - 3600 * (y0 - floorY)) := by
    nlinarith [hsq, hsnn]
  have harg : (-880 : ℝ) * -880 - 4 * (1/2 * 1800) * (y0 - floorY) =
      774400 - 3600 * (y0 - floorY) := by ring
  have hT : wallJumpT y0 floorY =
      (880 + Real.sqrt (774400 - 3600 * (y0 - floorY))) / 1800 := by
    unfold wallJumpT
    dsimp only
    rw [hG, hB, harg]
    rw [if_pos hdisc]
    norm_num
  have hTpos : 0 < wallJumpT y0 floorY := by
    rw [hT]
    positivity
  have hroot : 1/2 * ((GRAVITY : ℚ) : ℝ) * wallJumpT y0 floorY ^ 2 +
      ((WALL_JUMP_VY0 : ℚ) : ℝ) * wallJumpT y0 floorY + (y0 - floorY) = 0 := by
    rw [hG, hB, hT]
    linear_combination (1/3600 : ℝ) * hsq
  have hroot9 : 900 * wallJumpT y0 floorY ^ 2 - 880 * wallJumpT y0 floorY +
      (y0 - floorY) = 0 := by
    have := hroot
    rw [hG, hB] at this
    linarith
  have hvx : wallJumpVx tX x0 (wallJumpT y0 floorY) =
      (tX - x0) / wallJumpT y0 floorY := by
    unfold wallJumpVx
    rw [if_pos hTpos]
  refine ⟨hTpos, hroot, hvx, ?_, ?_, ?_⟩
  · rw [hvx]
    unfold flightXr
    field_simp
  · unfold flightYr
    rw [hG, hB]
    linarith [hroot9]
  · intro s hs0 hsT
    have hT880 : (880 : ℝ) ≤ 900 * wallJumpT y0 floorY := by
      rw [hT]
      nlinarith [hs880]
    have key : 0 < (wallJumpT y0 floorY - s) *
        (900 * (s + wallJumpT y0 floorY) - 880) :=
      mul_pos (by linarith) (by linarith)
    unfold flightYr
    rw [hG, hB]
    nlinarith [key, hroot9]

/-- Witness for C2 at `y0 = 980`, `floor_y = 1000`, `x0 = 100`,
`target_x = 300` (the discriminant is the perfect square `920²`, so
`t = 1`); also samples the arc strictly above the floor at `s = 1/2`. -/
theorem wall_jump_flight_witness :
    (980 : ℝ) ≤ 1000 ∧
    0 < wallJumpT 980 1000 ∧
    flightYr 980 ((WALL_JUMP_VY0 : ℚ) : ℝ) (wallJumpT 980 1000) = 1000 ∧
    flightXr 100 (wallJumpVx 300 100 (wallJumpT 980 1000))
      (wallJumpT 980 1000) = 300 ∧
    flightYr 980 ((WALL_JUMP_VY0 : ℚ) : ℝ) (1/2) < 1000 := by
  have H := wall_jump_flight 980 1000 100 300 (by norm_num)
  have hG : ((GRAVITY : ℚ) : ℝ) = 1800 := by norm_num [GRAVITY]
  have hB : ((WALL_JUMP_VY0 : ℚ) : ℝ) = -880 := by norm_num [WALL_JUMP_VY0]
  have hq : 900 * wallJumpT 980 1000 ^ 2 - 880 * wallJumpT 980 1000 - 20 = 0 := by
    have := H.2.1
    rw [hG, hB] at this
    linarith
  have hfac : (45 * wallJumpT 980 1000 + 1) * (wallJumpT 980 1000 - 1) = 0 := by
    linear_combination (1/20 : ℝ) * hq
  have hT1 : wallJumpT 980 1000 = 1 := by
    rcases mul_eq_zero.mp hfac with hl | hr
    · exfalso
      have := H.1
      linarith
    · linarith
  refine ⟨by norm_num, H.1, H.2.2.2.2.1, H.2.2.2.1, ?_⟩
  exact H.2.2.2.2.2 (1/2) (by norm_num) (by rw [hT1]; norm_num)

/-- Witness for C7 on the climb row (`start = 216`, `len = 8`): an in-range
tick, an unchanged non-firing tick, the reset of an out-of-range index, the
wrap from the last frame, and the row-change establishment. -/
theorem anim_frame_in_row_witness :
    0 < (Anim.mk 216 8 (1/12)).len ∧
    ((Anim.mk 216 8 (1/12)).start_index ≤
        animate_sprite_index true (Anim.mk 216 8 (1/12)) 223 ∧
      animate_sprite_index true (Anim.mk 216 8 (1/12)) 223 <
        (Anim.mk 216 8 (1/12)).start_index + (Anim.mk 216 8 (1/12)).len) ∧
    animate_sprite_index false (Anim.mk 216 8 (1/12)) 223 = 223 ∧
    (300 < (Anim.mk 216 8 (1/12)).start_index ∨
      300 ≥ (Anim.mk 216 8 (1/12)).start_index + (Anim.mk 216 8 (1/12)).len) ∧
    animate_sprite_index true (Anim.mk 216 8 (1/12)) 300 =
      animate_sprite_index true (Anim.mk 216 8 (1/12))
        (Anim.mk 216 8 (1/12)).start_index ∧
    223 = (Anim.mk 216 8 (1/12)).start_index + (Anim.mk 216 8 (1/12)).len - 1 ∧
    animate_sprite_index true (Anim.mk 216 8 (1/12)) 223 =
      (Anim.mk 216 8 (1/12)).start_index ∧
    (8 : ℕ) < 9 ∧
    (set_anim_if_changed (Anim.mk 216 8 (1/12)) 223 8 12 =
        (Anim.mk 216 8 (1/12), 223) ∨
      ((set_anim_if_changed (Anim.mk 216 8 (1/12)) 223 8 12).2 =
          (set_anim_if_changed (Anim.mk 216 8 (1/12)) 223 8 12).1.start_index ∧
        (set_anim_if_changed (Anim.mk 216 8 (1/12)) 223 8 12).1.len =
          ROW_FRAMES.getD 8 0 ∧
        0 < (set_anim_if_changed (Anim.mk 216 8 (1/12)) 223 8 12).1.len)) := by
  have H := anim_frame_in_row (Anim.mk 216 8 (1/12)) 223 8 12
  have H2 := anim_frame_in_row (Anim.mk 216 8 (1/12)) 300 8 12
  have hlen : 0 < (Anim.mk 216 8 (1/12 : ℚ)).len := by decide
  exact ⟨hlen, H.1 hlen, H.2.1, by decide,
    H2.2.2.1 hlen (by decide), by decide,
    H.2.2.2.1 hlen (by decide), by decide, H.2.2.2.2 (by decide)⟩

end Tovaras
